import Mathlib

/-!
Shallow embedding of `src/main.py` (binanceCryptoHistory): a Binance
historical-kline fetcher.  The exchange SDK (`binance.client.Client`),
`dateutil.parser.parse`, logging setup and file I/O are external
collaborators; the SDK is modelled as a response function, the permissive
fallback parser as an `Option`-valued oracle, log output as a list of the
formatted message strings, and a written file as its path together with the
single-key mapping serialized into it.
-/

/-- A raw kline as returned by the exchange: 12 positional fields.
`k[0]` (open time, ms epoch) is the only field the program computes with;
the remaining 11 are copied verbatim, so they are carried as strings. -/
structure Kline where
  openTime : Int
  openField : String
  highField : String
  lowField : String
  closeField : String
  volumeField : String
  closeTimeField : String
  quoteAssetVolume : String
  numberOfTrades : String
  takerBuyBase : String
  takerBuyQuote : String
  ignoreField : String
  deriving Repr, DecidableEq

/-- The dictionary built by `process_klines` for one kline: the 12 raw
fields under their names plus the three derived calendar fields.
`open_` models the dictionary key `"open"` (a Lean keyword). -/
structure NormalizedRecord where
  open_time : Int
  open_ : String
  high : String
  low : String
  close : String
  volume : String
  close_time : String
  quote_asset_volume : String
  number_of_trades : String
  taker_buy_base_volume : String
  taker_buy_quote_volume : String
  ignore : String
  day_of_month : Nat
  hour_of_day : Nat
  day_of_year : Nat
  deriving Repr, DecidableEq

/-- Result of parsing a date string: the calendar date part of a Python
`datetime` (the strict formats produce midnight; any time-of-day part of a
fallback result is irrelevant to this program, which only feeds the value
to `timestamp()`). -/
structure PDate where
  year : Nat
  month : Nat
  day : Nat
  deriving Repr, DecidableEq

/-- One response of the exchange to `get_klines`: either a (possibly empty)
batch of klines or a `BinanceAPIException` carrying its message. -/
inductive ApiResponse where
  | batch (b : List Kline)
  | apiError (msg : String)
  deriving Repr, DecidableEq

/-- The exchange SDK modelled as a deterministic response function: the
batch (or error) returned for the `i`-th call of one `fetch_data` run when
that call requests `startTime := s`, `endTime := e`. -/
def ApiModel : Type := Nat → Int → Int → ApiResponse

/- Interval-code constants of the external `binance.client.Client` class
(`KLINE_INTERVAL_15MINUTE` etc.), modelled with their published values. -/

def KLINE_INTERVAL_15MINUTE : String := "15m"

def KLINE_INTERVAL_30MINUTE : String := "30m"

def KLINE_INTERVAL_1HOUR : String := "1h"

def KLINE_INTERVAL_4HOUR : String := "4h"

def KLINE_INTERVAL_12HOUR : String := "12h"

def KLINE_INTERVAL_1DAY : String := "1d"

def KLINE_INTERVAL_1WEEK : String := "1w"

/-- `BinanceDataFetcher.map_resolution`: dictionary lookup with default
`None`. -/
def map_resolution (resolution : String) : Option String :=
  if resolution = "15m" then some KLINE_INTERVAL_15MINUTE
  else if resolution = "30m" then some KLINE_INTERVAL_30MINUTE
  else if resolution = "1h" then some KLINE_INTERVAL_1HOUR
  else if resolution = "4h" then some KLINE_INTERVAL_4HOUR
  else if resolution = "12h" then some KLINE_INTERVAL_12HOUR
  else if resolution = "1d" then some KLINE_INTERVAL_1DAY
  else if resolution = "1w" then some KLINE_INTERVAL_1WEEK
  else none

/-- The set of resolution strings the mapper accepts. -/
def supportedResolutions : List String :=
  ["15m", "30m", "1h", "4h", "12h", "1d", "1w"]

/- Date parsing.  `datetime.strptime(date_str, fmt)` for the four formats
`%Y:%m:%d`, `%Y-%m-%d`, `%Y/%m/%d`, `%Y.%m.%d` is modelled at the level of
CPython's `_strptime` regexes: `%Y` is exactly four digits, `%m` is
`1[0-2]|0[1-9]|[1-9]`, `%d` is `3[0-1]|[1-2][0-9]|0[1-9]|[1-9]| [1-9]`
(the last alternative is a blank-padded day), the whole string must be
consumed, and the resulting `datetime(y, m, d)` construction validates the
calendar date (raising `ValueError` otherwise, which the loop in
`parse_date` swallows).  Every alternative of a directive starts with a
distinct-range first character, and the separators are neither digits nor
the blank, so the leftmost-alternative regex match never needs
backtracking here. -/

/-- `%Y`: exactly four digits, decoded as a number. -/
def parseYear : List Char → Option (Nat × List Char)
  | a :: b :: c :: d :: rest =>
    if a.isDigit ∧ b.isDigit ∧ c.isDigit ∧ d.isDigit then
      some ((((a.toNat - 48) * 10 + (b.toNat - 48)) * 10 + (c.toNat - 48)) * 10
        + (d.toNat - 48), rest)
    else none
  | _ => none

/-- `%m`: the regex `1[0-2]|0[1-9]|[1-9]`, alternatives tried left to
right. -/
def parseMonth : List Char → Option (Nat × List Char)
  | a :: b :: rest =>
    if a = '1' ∧ ('0' ≤ b ∧ b ≤ '2') then some (10 + (b.toNat - 48), rest)
    else if a = '0' ∧ ('1' ≤ b ∧ b ≤ '9') then some (b.toNat - 48, rest)
    else if '1' ≤ a ∧ a ≤ '9' then some (a.toNat - 48, b :: rest)
    else none
  | [a] => if '1' ≤ a ∧ a ≤ '9' then some (a.toNat - 48, []) else none
  | [] => none

/-- `%d`: the regex `3[0-1]|[1-2][0-9]|0[1-9]|[1-9]| [1-9]`, alternatives
tried left to right; the final alternative accepts a blank-padded
single-digit day. -/
def parseDay : List Char → Option (Nat × List Char)
  | a :: b :: rest =>
    if a = '3' ∧ ('0' ≤ b ∧ b ≤ '1') then some (30 + (b.toNat - 48), rest)
    else if ('1' ≤ a ∧ a ≤ '2') ∧ b.isDigit then
      some ((a.toNat - 48) * 10 + (b.toNat - 48), rest)
    else if a = '0' ∧ ('1' ≤ b ∧ b ≤ '9') then some (b.toNat - 48, rest)
    else if '1' ≤ a ∧ a ≤ '9' then some (a.toNat - 48, b :: rest)
    else if a = ' ' ∧ ('1' ≤ b ∧ b ≤ '9') then some (b.toNat - 48, rest)
    else none
  | [a] => if '1' ≤ a ∧ a ≤ '9' then some (a.toNat - 48, []) else none
  | [] => none

/-- `datetime.isleap`-style Gregorian leap-year test. -/
def isLeap (y : Int) : Bool :=
  y % 4 == 0 && (y % 100 != 0 || y % 400 == 0)

/-- Length of month `m` of year `y`, as enforced by the `datetime`
constructor. -/
def daysInMonth (y m : Nat) : Nat :=
  if m = 2 then (if isLeap (y : Int) then 29 else 28)
  else if m = 4 ∨ m = 6 ∨ m = 9 ∨ m = 11 then 30
  else 31

/-- The dates `datetime(y, m, d)` accepts: `MINYEAR ≤ y ≤ MAXYEAR` and a
real calendar day. -/
def validDate (y m d : Nat) : Prop :=
  1 ≤ y ∧ y ≤ 9999 ∧ 1 ≤ m ∧ m ≤ 12 ∧ 1 ≤ d ∧ d ≤ daysInMonth y m

instance (y m d : Nat) : Decidable (validDate y m d) := by
  unfold validDate; infer_instance

/-- Tail of a strict-format parse after the day: whole string consumed,
then the `datetime` constructor's validation. -/
def finishDay (y m : Nat) (p : Nat × List Char) : Option PDate :=
  if p.2 = [] ∧ validDate y m p.1 then some ⟨y, m, p.1⟩ else none

/-- Tail of a strict-format parse after the month: literal separator again,
then `%d`. -/
def afterMonth (sep : Char) (y : Nat) (p : Nat × List Char) : Option PDate :=
  match p.2 with
  | c2 :: r4 =>
    if c2 = sep then (parseDay r4).bind (finishDay y p.1) else none
  | [] => none

/-- Tail of a strict-format parse after the year: literal separator, then
`%m`. -/
def afterYear (sep : Char) (p : Nat × List Char) : Option PDate :=
  match p.2 with
  | c1 :: r2 =>
    if c1 = sep then (parseMonth r2).bind (afterMonth sep p.1) else none
  | [] => none

/-- `datetime.strptime(s, "%Y" sep "%m" sep "%d")`, as `none` on
`ValueError`. -/
def strptimeYMD (sep : Char) (s : String) : Option PDate :=
  (parseYear s.data).bind (afterYear sep)

/-- The separators of the four strict formats of `parse_date`, in the
order the source tries them. -/
def strictSeps : List Char := [':', '-', '/', '.']

/-- `BinanceDataFetcher.parse_date`: the four strict formats in order,
then the permissive `dateutil` fallback `fb` (an external collaborator),
then `ValueError` with the offending string.  Errors are the raised
exception's message. -/
def parse_date (fb : String → Option PDate) (s : String) : Except String PDate :=
  match strictSeps.findSome? (fun sep => strptimeYMD sep s) with
  | some d => Except.ok d
  | none =>
    match fb s with
    | some d => Except.ok d
    | none => Except.error ("Invalid date format: " ++ s)

/- The fetch loop of `BinanceDataFetcher.fetch_data` (lines 63-83).  The
Python `while` has no built-in bound, so it is embedded with explicit
fuel; `none` means the fuel ran out, i.e. the Python loop would still be
running after that many iterations.  Each iteration makes exactly one
`get_klines` call, so the response function is consulted once per step
with the current call index and the current window. -/

/-- `batch[-1][0]`: open time of the last record of a batch (`0` is never
used: the source only evaluates this on non-empty batches). -/
def lastOpen (b : List Kline) : Int :=
  match b.getLast? with
  | some k => k.openTime
  | none => 0

/-- The log line `f"Fetched {len(batch)} records for {asset}"`. -/
def fetchedLine (asset : String) (n : Nat) : String :=
  "Fetched " ++ toString n ++ " records for " ++ asset

/-- The log line `f"API error fetching data for {asset}: {e}"`. -/
def apiErrorLine (asset : String) (msg : String) : String :=
  "API error fetching data for " ++ asset ++ ": " ++ msg

/-- The `while start_ts < end_ts` loop: empty batch breaks, a non-empty
batch is logged, appended whole, and moves `start_ts` to
`batch[-1][0] + 1`, an API error is logged and breaks.  Returns the
accumulated klines and the log lines emitted, or `none` when the fuel is
exhausted with the loop guard still true. -/
def fetchLoopF (api : ApiModel) (asset : String) :
    Nat → Nat → Int → Int → List Kline → List String →
      Option (List Kline × List String)
  | 0, _, start_ts, end_ts, acc, log =>
    if start_ts < end_ts then none else some (acc, log)
  | fuel + 1, i, start_ts, end_ts, acc, log =>
    if start_ts < end_ts then
      match api i start_ts end_ts with
      | ApiResponse.apiError msg =>
        some (acc, log ++ [apiErrorLine asset msg])
      | ApiResponse.batch [] => some (acc, log)
      | ApiResponse.batch (k :: ks) =>
        fetchLoopF api asset fuel (i + 1) (lastOpen (k :: ks) + 1) end_ts
          (acc ++ (k :: ks)) (log ++ [fetchedLine asset (k :: ks).length])
    else some (acc, log)

/-- `BinanceDataFetcher.fetch_data`.  `fb` is the `dateutil` fallback and
`toMs` models `int(dt.timestamp() * 1000)` (local-timezone dependent,
hence a parameter of the environment).  `Except.error` is the raised
`ValueError`'s message; an `Except.ok none` means the loop would not have
terminated within `(end_ts - start_ts)` iterations (each productive
iteration advances `start_ts` by at least one when batches are
well-formed, so that much fuel is enough for any API respecting request
windows; see the termination theorem). -/
def fetch_data (fb : String → Option PDate) (toMs : PDate → Int)
    (api : ApiModel) (asset resolution start_date end_date : String) :
    Except String (Option (List Kline × List String)) :=
  match map_resolution resolution with
  | none => Except.error ("Unsupported resolution: " ++ resolution)
  | some _ =>
    match parse_date fb start_date with
    | Except.error e => Except.error e
    | Except.ok start_dt =>
      match parse_date fb end_date with
      | Except.error e => Except.error e
      | Except.ok end_dt =>
        let start_ts := toMs start_dt
        let end_ts := toMs end_dt
        Except.ok
          (fetchLoopF api asset (end_ts - start_ts).toNat 0 start_ts end_ts [] [])

/- `BinanceDataFetcher.process_klines` (lines 85-109).
`datetime.utcfromtimestamp(k[0] / 1000)` is an external call; it is
modelled by the standard proleptic-Gregorian civil-from-days algorithm on
the floor of the epoch-second value (the fractional part of `k[0] / 1000`
only contributes sub-second precision, which none of the three extracted
fields depend on). -/

/-- Days-since-epoch to civil `(year, month, day)` (proleptic Gregorian,
as computed by `datetime.utcfromtimestamp`). -/
def civilFromDays (days : Int) : Int × Nat × Nat :=
  let z := days + 719468
  let era := z.fdiv 146097
  let doe := (z - era * 146097).toNat
  let yoe := (doe - doe / 1460 + doe / 36524 - doe / 146096) / 365
  let y := (yoe : Int) + era * 400
  let doy := doe - (365 * yoe + yoe / 4 - yoe / 100)
  let mp := (5 * doy + 2) / 153
  let d := doy - (153 * mp + 2) / 5 + 1
  let m := if mp < 10 then mp + 3 else mp - 9
  ((if m ≤ 2 then y + 1 else y), m, d)

/-- Days in the year before month `m` (for `tm_yday`). -/
def monthDaysCum (leap : Bool) (m : Nat) : Nat :=
  let base :=
    match m with
    | 1 => 0 | 2 => 31 | 3 => 59 | 4 => 90 | 5 => 120 | 6 => 151
    | 7 => 181 | 8 => 212 | 9 => 243 | 10 => 273 | 11 => 304 | 12 => 334
    | _ => 0
  if leap ∧ 2 < m then base + 1 else base

/-- The dictionary `process_klines` appends for one kline `k`:
`dt = datetime.utcfromtimestamp(k[0] / 1000)`, then the 12 fields by
position plus `dt.day`, `dt.hour`, `dt.timetuple().tm_yday`. -/
def normalizeOne (k : Kline) : NormalizedRecord :=
  let secs := k.openTime.fdiv 1000
  let days := secs.fdiv 86400
  let secondsOfDay := (secs - days * 86400).toNat
  let ymd := civilFromDays days
  { open_time := k.openTime
    open_ := k.openField
    high := k.highField
    low := k.lowField
    close := k.closeField
    volume := k.volumeField
    close_time := k.closeTimeField
    quote_asset_volume := k.quoteAssetVolume
    number_of_trades := k.numberOfTrades
    taker_buy_base_volume := k.takerBuyBase
    taker_buy_quote_volume := k.takerBuyQuote
    ignore := k.ignoreField
    day_of_month := ymd.2.2
    hour_of_day := secondsOfDay / 3600
    day_of_year := monthDaysCum (isLeap ymd.1) ymd.2.1 + ymd.2.2 }

/-- `BinanceDataFetcher.process_klines`: the `for k in klines: append`
loop, one output per input in order. -/
def process_klines : List Kline → List NormalizedRecord
  | [] => []
  | k :: rest => normalizeOne k :: process_klines rest

/- The orchestrator `main` (lines 148-176).  Argument parsing, directory
creation and the file-system write are external; a written file is
modelled as `(path, key, records)`: the source serializes
`{asset: processed_data}` into `<output_folder>/<asset>_<resolution>.json`. -/

/-- Python's `"USDT" in asset` on the underlying character lists: some
suffix of the haystack starts with the needle. -/
def listContains (needle : List Char) : List Char → Bool
  | [] => needle.isPrefixOf ([] : List Char)
  | c :: t => needle.isPrefixOf (c :: t) || listContains needle t

/-- `"USDT" in asset`: case-sensitive substring membership. -/
def strContains (hay needle : String) : Bool :=
  listContains needle.data hay.data

/-- Line 158: `asset if "USDT" in asset else f"{asset}USDT"`. -/
def symbolFor (asset : String) : String :=
  if strContains asset "USDT" then asset else asset ++ "USDT"

/-- The log line `f"Fetching data for {asset}"`. -/
def fetchingLine (asset : String) : String :=
  "Fetching data for " ++ asset

/-- The log line of the per-asset `except` handler,
`f"Failed to fetch data for {asset}: {e}"`. -/
def failedLine (asset : String) (e : String) : String :=
  "Failed to fetch data for " ++ asset ++ ": " ++ e

/-- `os.path.join(output_folder, f"{asset}_{resolution}.json")`. -/
def outPath (output_folder asset resolution : String) : String :=
  output_folder ++ "/" ++ (asset ++ "_" ++ resolution ++ ".json")

/-- The `for asset in args.assets` loop of `main`: per asset, normalize the
symbol, fetch, process, and write `{asset: processed}`; any exception is
caught, logged, and the loop continues with the next asset.  Returns the
files written (path, top-level key, records) and the log, or `none` when
some asset's fetch loop fails to terminate (then the whole process hangs). -/
def mainLoop (fb : String → Option PDate) (toMs : PDate → Int)
    (api : String → ApiModel) (resolution start_date end_date output_folder : String) :
    List String → Option (List (String × String × List NormalizedRecord) × List String)
  | [] => some ([], [])
  | asset :: rest =>
    match fetch_data fb toMs (api (symbolFor asset)) (symbolFor asset)
        resolution start_date end_date with
    | Except.error e =>
      (mainLoop fb toMs api resolution start_date end_date output_folder rest).map
        (fun p => (p.1, fetchingLine asset :: failedLine asset e :: p.2))
    | Except.ok none => none
    | Except.ok (some (klines, floG)) =>
      let processed := process_klines klines
      let path := outPath output_folder asset resolution
      (mainLoop fb toMs api resolution start_date end_date output_folder rest).map
        (fun p =>
          ((path, asset, processed) :: p.1,
            fetchingLine asset :: (floG ++
              ("Total fetched " ++ toString processed.length ++ " records for " ++ asset) ::
              ("Data saved to " ++ path) :: p.2)))

/- ===================== Support lemmas ===================== -/

theorem listContains_iff (needle : List Char) (l : List Char) :
    listContains needle l = true ↔ ∃ p q, l = p ++ (needle ++ q) := by
  induction l with
  | nil =>
    simp only [listContains, List.isPrefixOf_iff_prefix]
    constructor
    · intro h
      refine ⟨[], [], ?_⟩
      have hn : needle = [] := List.prefix_nil.mp h
      simp [hn]
    · rintro ⟨p, q, hpq⟩
      have hn : needle = [] := by
        rcases List.append_eq_nil.mp hpq.symm with ⟨-, h2⟩
        exact (List.append_eq_nil.mp h2).1
      simp [hn]
  | cons c t ih =>
    simp only [listContains, Bool.or_eq_true, List.isPrefixOf_iff_prefix, ih]
    constructor
    · rintro (h | ⟨p, q, rfl⟩)
      · obtain ⟨q, hq⟩ := h
        exact ⟨[], q, by simp [hq]⟩
      · exact ⟨c :: p, q, rfl⟩
    · rintro ⟨p, q, hpq⟩
      match p, hpq with
      | [], hpq => exact Or.inl ⟨q, by simpa using hpq.symm⟩
      | c2 :: p2, hpq =>
        rw [List.cons_append] at hpq
        exact Or.inr ⟨p2, q, (List.cons.injEq _ _ _ _ ▸ hpq).2⟩

theorem strContains_usdt_iff (a : String) :
    strContains a "USDT" = true ↔ ∃ p q : String, a = p ++ "USDT" ++ q := by
  unfold strContains
  rw [listContains_iff]
  constructor
  · rintro ⟨p, q, h⟩
    refine ⟨⟨p⟩, ⟨q⟩, ?_⟩
    apply String.ext
    simpa [String.data_append] using h
  · rintro ⟨p, q, rfl⟩
    exact ⟨p.data, q.data, by simp [String.data_append]⟩

/- ===================== Claim theorems ===================== -/

/-- C8: a resolution string outside {15m, 30m, 1h, 4h, 12h, 1d, 1w} is
mapped to `none` (and only those), each supported string is mapped to the
exchange's interval-code constant, and with an absent mapping `fetch_data`
fails with the `Unsupported resolution` error identically for every
response function — no network request is made. -/
theorem c8_unsupported_resolution :
    (∀ r : String, map_resolution r = none ↔ r ∉ supportedResolutions) ∧
    (map_resolution "15m" = some KLINE_INTERVAL_15MINUTE ∧
      map_resolution "30m" = some KLINE_INTERVAL_30MINUTE ∧
      map_resolution "1h" = some KLINE_INTERVAL_1HOUR ∧
      map_resolution "4h" = some KLINE_INTERVAL_4HOUR ∧
      map_resolution "12h" = some KLINE_INTERVAL_12HOUR ∧
      map_resolution "1d" = some KLINE_INTERVAL_1DAY ∧
      map_resolution "1w" = some KLINE_INTERVAL_1WEEK) ∧
    (∀ (fb : String → Option PDate) (toMs : PDate → Int) (api : ApiModel)
        (asset r start_date end_date : String),
      map_resolution r = none →
        fetch_data fb toMs api asset r start_date end_date =
          Except.error ("Unsupported resolution: " ++ r)) := by
  refine ⟨?_, ⟨rfl, rfl, rfl, rfl, rfl, rfl, rfl⟩, ?_⟩
  · intro r
    unfold map_resolution supportedResolutions
    split_ifs with h1 h2 h3 h4 h5 h6 h7 <;> simp_all
  · intro fb toMs api asset r sd ed h
    unfold fetch_data
    rw [h]

/-- C8 witness: the unsupported resolution "2h" at a concrete environment. -/
theorem c8_unsupported_resolution_check :
    fetch_data (fun _ => none) (fun _ => 0) (fun _ _ _ => ApiResponse.batch [])
      "BTCUSDT" "2h" "2020-01-01" "2020-01-02" =
        Except.error "Unsupported resolution: 2h" :=
  c8_unsupported_resolution.2.2 (fun _ => none) (fun _ => 0)
    (fun _ _ _ => ApiResponse.batch []) "BTCUSDT" "2h" "2020-01-01" "2020-01-02"
    (by decide)

/-- C5: the queried symbol is the asset itself exactly when "USDT" occurs
anywhere in it as a case-sensitive substring, and the asset with "USDT"
appended otherwise; "BTC" becomes "BTCUSDT", "BTCUSDT" is not
double-appended, a non-suffix occurrence ("USDTBTC") is kept unchanged,
and lowercase "usdt" does not count as an occurrence. -/
theorem c5_symbol_normalization :
    (∀ a : String,
      ((∃ p q : String, a = p ++ "USDT" ++ q) → symbolFor a = a) ∧
      ((¬ ∃ p q : String, a = p ++ "USDT" ++ q) → symbolFor a = a ++ "USDT")) ∧
    symbolFor "BTC" = "BTCUSDT" ∧ symbolFor "BTCUSDT" = "BTCUSDT" ∧
    symbolFor "USDTBTC" = "USDTBTC" ∧ symbolFor "btcusdt" = "btcusdtUSDT" := by
  refine ⟨?_, rfl, rfl, rfl, rfl⟩
  intro a
  constructor
  · intro h
    have hb : strContains a "USDT" = true := (strContains_usdt_iff a).mpr h
    simp [symbolFor, hb]
  · intro h
    cases hb : strContains a "USDT" with
    | false => simp [symbolFor, hb]
    | true => exact absurd ((strContains_usdt_iff a).mp hb) h

/-- C5 witness: a non-suffix, mid-string occurrence of "USDT" is left
unchanged. -/
theorem c5_symbol_normalization_check : symbolFor "XUSDTZ" = "XUSDTZ" :=
  (c5_symbol_normalization.1 "XUSDTZ").1 ⟨"X", "Z", rfl⟩

/-- A concrete kline for instantiating the loop theorems. -/
def testKline (t : Int) : Kline :=
  ⟨t, "o", "h", "l", "c", "v", "ct", "q", "n", "tb", "tq", "ig"⟩

/-- C1: one iteration of the pagination loop on a non-empty batch with
last open time `t = lastOpen (k :: ks)` appends the whole batch to the
accumulator and issues the next request with start timestamp exactly
`t + 1`, which is strictly past `t`, so the boundary record is never
requested again. -/
theorem c1_batch_boundary_advance :
    ∀ (api : ApiModel) (asset : String) (fuel i : Nat) (start_ts end_ts : Int)
      (acc : List Kline) (log : List String) (k : Kline) (ks : List Kline),
      start_ts < end_ts → api i start_ts end_ts = ApiResponse.batch (k :: ks) →
        fetchLoopF api asset (fuel + 1) i start_ts end_ts acc log =
          fetchLoopF api asset fuel (i + 1) (lastOpen (k :: ks) + 1) end_ts
            (acc ++ (k :: ks)) (log ++ [fetchedLine asset (k :: ks).length]) ∧
        lastOpen (k :: ks) < lastOpen (k :: ks) + 1 := by
  intro api asset fuel i start_ts end_ts acc log k ks hse hap
  exact ⟨by simp [fetchLoopF, hse, hap], by omega⟩

/-- C1 witness: a concrete first batch ending at open time 9 is appended
whole and the next request starts at 10. -/
theorem c1_batch_boundary_advance_check :
    fetchLoopF (fun _ _ _ => ApiResponse.batch [testKline 5, testKline 9])
        "BTCUSDT" 1 0 0 100 [] [] =
      fetchLoopF (fun _ _ _ => ApiResponse.batch [testKline 5, testKline 9])
        "BTCUSDT" 0 1 (lastOpen [testKline 5, testKline 9] + 1) 100
        ([] ++ [testKline 5, testKline 9])
        ([] ++ [fetchedLine "BTCUSDT" [testKline 5, testKline 9].length]) ∧
    lastOpen [testKline 5, testKline 9] < lastOpen [testKline 5, testKline 9] + 1 :=
  c1_batch_boundary_advance (fun _ _ _ => ApiResponse.batch [testKline 5, testKline 9])
    "BTCUSDT" 0 0 0 100 [] [] (testKline 5) [testKline 9] (by decide) rfl

/-- C2: when every non-empty batch answers its request with a last open
time at least the requested start timestamp, the loop terminates within
`(end_ts - start_ts)` iterations; the loop body runs only while
`start_ts < end_ts` (otherwise the accumulator is returned untouched); an
empty batch stops iteration immediately, returning everything accumulated;
and after every non-empty batch the next start timestamp `lastOpen b + 1`
is strictly greater than the current one. -/
theorem c2_loop_termination :
    ∀ (api : ApiModel) (asset : String),
      (∀ (j : Nat) (s e : Int) (b : List Kline),
          api j s e = ApiResponse.batch b → b ≠ [] → s ≤ lastOpen b) →
      (∀ (fuel i : Nat) (start_ts end_ts : Int) (acc : List Kline) (log : List String),
        (end_ts - start_ts).toNat ≤ fuel →
          (fetchLoopF api asset fuel i start_ts end_ts acc log).isSome = true) ∧
      (∀ (fuel i : Nat) (start_ts end_ts : Int) (acc : List Kline) (log : List String),
        ¬ start_ts < end_ts →
          fetchLoopF api asset fuel i start_ts end_ts acc log = some (acc, log)) ∧
      (∀ (fuel i : Nat) (start_ts end_ts : Int) (acc : List Kline) (log : List String),
        start_ts < end_ts → api i start_ts end_ts = ApiResponse.batch [] →
          fetchLoopF api asset (fuel + 1) i start_ts end_ts acc log = some (acc, log)) ∧
      (∀ (i : Nat) (start_ts end_ts : Int) (b : List Kline),
        start_ts < end_ts → api i start_ts end_ts = ApiResponse.batch b → b ≠ [] →
          start_ts < lastOpen b + 1) := by
  intro api asset H
  refine ⟨?_, ?_, ?_, ?_⟩
  · intro fuel
    induction fuel with
    | zero =>
      intro i s e acc log hf
      have hse : ¬ s < e := by omega
      simp [fetchLoopF, hse]
    | succ n ih =>
      intro i s e acc log hf
      by_cases hse : s < e
      · cases hap : api i s e with
        | apiError msg => simp [fetchLoopF, hse, hap]
        | batch b =>
          cases b with
          | nil => simp [fetchLoopF, hse, hap]
          | cons k ks =>
            have hle : s ≤ lastOpen (k :: ks) := H i s e (k :: ks) hap (by simp)
            have hstep : fetchLoopF api asset (n + 1) i s e acc log =
                fetchLoopF api asset n (i + 1) (lastOpen (k :: ks) + 1) e
                  (acc ++ (k :: ks)) (log ++ [fetchedLine asset (k :: ks).length]) := by
              simp [fetchLoopF, hse, hap]
            rw [hstep]
            exact ih (i + 1) (lastOpen (k :: ks) + 1) e _ _ (by omega)
      · simp [fetchLoopF, hse]
  · intro fuel i s e acc log hse
    cases fuel <;> simp [fetchLoopF, hse]
  · intro fuel i s e acc log hse hap
    simp [fetchLoopF, hse, hap]
  · intro i s e b hse hap hb
    have := H i s e b hap hb
    omega

/-- C2 witness: an API echoing the requested start time terminates within
the window size; the guard-false and empty-batch cases at a concrete
state. -/
theorem c2_loop_termination_check :
    (fetchLoopF (fun _ s _ => ApiResponse.batch [testKline s]) "BTCUSDT"
        5 0 0 5 [] []).isSome = true ∧
    fetchLoopF (fun _ s _ => ApiResponse.batch [testKline s]) "BTCUSDT"
        7 0 3 3 [] [] = some ([], []) :=
  And.intro
    ((c2_loop_termination (fun _ s _ => ApiResponse.batch [testKline s]) "BTCUSDT"
      (by
        intro j s e b hb hne
        cases hb
        simp [lastOpen, testKline])).1 5 0 0 5 [] [] (by decide))
    ((c2_loop_termination (fun _ s _ => ApiResponse.batch [testKline s]) "BTCUSDT"
      (by
        intro j s e b hb hne
        cases hb
        simp [lastOpen, testKline])).2.1 7 0 3 3 [] [] (by decide))

/-- C3: an API-level error on any iteration is logged and stops the loop,
returning exactly the records accumulated before the failing request
without raising; in particular when the first batch succeeds and the
second request fails, the result is exactly the first batch's records with
the error logged after the first batch's log line. -/
theorem c3_api_error_partial :
    (∀ (api : ApiModel) (asset : String) (fuel i : Nat) (start_ts end_ts : Int)
        (acc : List Kline) (log : List String) (msg : String),
      start_ts < end_ts → api i start_ts end_ts = ApiResponse.apiError msg →
        fetchLoopF api asset (fuel + 1) i start_ts end_ts acc log =
          some (acc, log ++ [apiErrorLine asset msg])) ∧
    (∀ (api : ApiModel) (asset : String) (fuel : Nat) (start_ts end_ts : Int)
        (k : Kline) (ks : List Kline) (msg : String),
      start_ts < end_ts → api 0 start_ts end_ts = ApiResponse.batch (k :: ks) →
      lastOpen (k :: ks) + 1 < end_ts →
      api 1 (lastOpen (k :: ks) + 1) end_ts = ApiResponse.apiError msg →
        fetchLoopF api asset (fuel + 2) 0 start_ts end_ts [] [] =
          some (k :: ks, [fetchedLine asset (k :: ks).length, apiErrorLine asset msg])) := by
  constructor
  · intro api asset fuel i s e acc log msg hse hap
    simp [fetchLoopF, hse, hap]
  · intro api asset fuel s e k ks msg hse hap1 hlt hap2
    have hstep : fetchLoopF api asset (fuel + 2) 0 s e [] [] =
        fetchLoopF api asset (fuel + 1) 1 (lastOpen (k :: ks) + 1) e
          (k :: ks) [fetchedLine asset (k :: ks).length] := by
      simpa using
        (c1_batch_boundary_advance api asset (fuel + 1) 0 s e [] [] k ks hse hap1).1
    rw [hstep]
    simp [fetchLoopF, hlt, hap2]

/-- C3 witness: the mock API erroring on the second request returns exactly
the first batch and logs the error. -/
theorem c3_api_error_partial_check :
    fetchLoopF
        (fun i _ _ => if i = 0 then ApiResponse.batch [testKline 5, testKline 9]
          else ApiResponse.apiError "boom") "BTCUSDT" 2 0 0 100 [] [] =
      some (testKline 5 :: [testKline 9],
        [fetchedLine "BTCUSDT" (testKline 5 :: [testKline 9]).length,
          apiErrorLine "BTCUSDT" "boom"]) :=
  c3_api_error_partial.2
    (fun i _ _ => if i = 0 then ApiResponse.batch [testKline 5, testKline 9]
      else ApiResponse.apiError "boom")
    "BTCUSDT" 0 0 100 (testKline 5) [testKline 9] "boom"
    (by decide) rfl (by decide) rfl

theorem parse_date_error_msg (fb : String → Option PDate) (s e : String)
    (h : parse_date fb s = Except.error e) : e = "Invalid date format: " ++ s := by
  unfold parse_date at h
  cases hfs : strictSeps.findSome? (fun sep => strptimeYMD sep s) with
  | some d => rw [hfs] at h; exact absurd h (by simp)
  | none =>
    rw [hfs] at h
    cases hfb : fb s with
    | some d => rw [hfb] at h; exact absurd h (by simp)
    | none => rw [hfb] at h; exact (Except.error.injEq _ _ ▸ h).symm

/-- C4: when processing one asset raises (the fetch pipeline returns an
error — which is always an unsupported-resolution or invalid-date error),
the orchestrator's loop writes no file for that asset, logs the failure,
and produces for the remaining assets exactly what it would have produced
anyway. -/
theorem c4_asset_error_isolated :
    (∀ (fb : String → Option PDate) (toMs : PDate → Int) (api : String → ApiModel)
        (resolution start_date end_date output_folder asset : String)
        (rest : List String) (e : String),
      fetch_data fb toMs (api (symbolFor asset)) (symbolFor asset)
          resolution start_date end_date = Except.error e →
        mainLoop fb toMs api resolution start_date end_date output_folder (asset :: rest) =
          (mainLoop fb toMs api resolution start_date end_date output_folder rest).map
            (fun p => (p.1, fetchingLine asset :: failedLine asset e :: p.2))) ∧
    (∀ (fb : String → Option PDate) (toMs : PDate → Int) (api : String → ApiModel)
        (resolution start_date end_date output_folder asset : String)
        (rest : List String) (e : String)
        (files : List (String × String × List NormalizedRecord)) (log : List String),
      fetch_data fb toMs (api (symbolFor asset)) (symbolFor asset)
          resolution start_date end_date = Except.error e →
      mainLoop fb toMs api resolution start_date end_date output_folder rest =
          some (files, log) →
        mainLoop fb toMs api resolution start_date end_date output_folder (asset :: rest) =
          some (files, fetchingLine asset :: failedLine asset e :: log)) ∧
    (∀ (fb : String → Option PDate) (toMs : PDate → Int) (api : ApiModel)
        (asset resolution start_date end_date e : String),
      fetch_data fb toMs api asset resolution start_date end_date = Except.error e →
        e = "Unsupported resolution: " ++ resolution ∨
        e = "Invalid date format: " ++ start_date ∨
        e = "Invalid date format: " ++ end_date) := by
  refine ⟨?_, ?_, ?_⟩
  · intro fb toMs api resolution sd ed out asset rest e h
    simp [mainLoop, h]
  · intro fb toMs api resolution sd ed out asset rest e files log h hrest
    simp [mainLoop, h, hrest]
  · intro fb toMs api asset resolution sd ed e h
    unfold fetch_data at h
    cases hm : map_resolution resolution with
    | none =>
      rw [hm] at h
      exact Or.inl (Except.error.injEq _ _ ▸ h).symm
    | some interval =>
      rw [hm] at h
      cases hsd : parse_date fb sd with
      | error e2 =>
        rw [hsd] at h
        exact Or.inr (Or.inl ((Except.error.injEq _ _ ▸ h).symm.trans
          (parse_date_error_msg fb sd e2 hsd)))
      | ok d1 =>
        rw [hsd] at h
        cases hed : parse_date fb ed with
        | error e2 =>
          rw [hed] at h
          exact Or.inr (Or.inr ((Except.error.injEq _ _ ▸ h).symm.trans
            (parse_date_error_msg fb ed e2 hed)))
        | ok d2 => rw [hed] at h; exact absurd h (by simp)

/-- C4 witness: an unsupported resolution for asset "BTC" yields no file,
a logged failure, and an untouched (empty) remainder of the run. -/
theorem c4_asset_error_isolated_check :
    mainLoop (fun _ => none) (fun _ => 0) (fun _ _ _ _ => ApiResponse.batch [])
        "2h" "2020-01-01" "2020-01-02" "crypto_data" ["BTC"] =
      some ([], [fetchingLine "BTC", failedLine "BTC" "Unsupported resolution: 2h"]) :=
  c4_asset_error_isolated.2.1 (fun _ => none) (fun _ => 0)
    (fun _ _ _ _ => ApiResponse.batch []) "2h" "2020-01-01" "2020-01-02"
    "crypto_data" "BTC" [] "Unsupported resolution: 2h" [] [] rfl rfl

/-- C10: an asset whose fetch succeeds with zero records still gets its
output file: `process_klines [] = []`, and the loop prepends
`(path, asset, process_klines [])` — the asset key mapped to the empty
array — before continuing with the rest. -/
theorem c10_empty_fetch_writes_file :
    process_klines [] = [] ∧
    (∀ (fb : String → Option PDate) (toMs : PDate → Int) (api : String → ApiModel)
        (resolution start_date end_date output_folder asset : String)
        (rest : List String) (floG : List String),
      fetch_data fb toMs (api (symbolFor asset)) (symbolFor asset)
          resolution start_date end_date = Except.ok (some ([], floG)) →
        mainLoop fb toMs api resolution start_date end_date output_folder (asset :: rest) =
          (mainLoop fb toMs api resolution start_date end_date output_folder rest).map
            (fun p =>
              ((outPath output_folder asset resolution, asset, process_klines []) :: p.1,
                fetchingLine asset :: (floG ++
                  ("Total fetched " ++ toString (process_klines ([] : List Kline)).length
                    ++ " records for " ++ asset) ::
                  ("Data saved to " ++ outPath output_folder asset resolution) :: p.2)))) := by
  refine ⟨rfl, ?_⟩
  intro fb toMs api resolution sd ed out asset rest floG h
  simp [mainLoop, h]

/-- C10 witness: a window of width zero fetches no records, yet the file
for "BTC" at resolution "1h" is written with the empty array. -/
theorem c10_empty_fetch_writes_file_check :
    mainLoop (fun _ => none) (fun _ => 0) (fun _ _ _ _ => ApiResponse.batch [])
        "1h" "2020-01-01" "2020-01-02" "crypto_data" ["BTC"] =
      (mainLoop (fun _ => none) (fun _ => 0) (fun _ _ _ _ => ApiResponse.batch [])
          "1h" "2020-01-01" "2020-01-02" "crypto_data" []).map
        (fun p =>
          ((outPath "crypto_data" "BTC" "1h", "BTC", process_klines []) :: p.1,
            fetchingLine "BTC" :: (([] : List String) ++
              ("Total fetched " ++ toString (process_klines ([] : List Kline)).length
                ++ " records for " ++ "BTC") ::
              ("Data saved to " ++ outPath "crypto_data" "BTC" "1h") :: p.2))) :=
  c10_empty_fetch_writes_file.2 (fun _ => none) (fun _ => 0)
    (fun _ _ _ _ => ApiResponse.batch []) "1h" "2020-01-01" "2020-01-02"
    "crypto_data" "BTC" [] [] rfl

/- Rendering a calendar date the way `strftime` would for the strict
formats: `%Y` zero-padded to four digits, `%m` and `%d` to two. -/

/-- The character of a decimal digit value. -/
def digitChar : Nat → Char
  | 0 => '0' | 1 => '1' | 2 => '2' | 3 => '3' | 4 => '4'
  | 5 => '5' | 6 => '6' | 7 => '7' | 8 => '8' | 9 => '9'
  | _ => '*'

/-- `%04d`. -/
def pad4chars (n : Nat) : List Char :=
  [digitChar (n / 1000), digitChar (n / 100 % 10), digitChar (n / 10 % 10),
    digitChar (n % 10)]

/-- `%02d`. -/
def pad2chars (n : Nat) : List Char :=
  [digitChar (n / 10), digitChar (n % 10)]

/-- The date `(y, m, d)` rendered in the strict format whose separator is
`sep`. -/
def renderDate (sep : Char) (y m d : Nat) : String :=
  ⟨pad4chars y ++ sep :: (pad2chars m ++ sep :: pad2chars d)⟩

theorem digitChar_isDigit (k : Nat) (h : k < 10) : (digitChar k).isDigit = true := by
  interval_cases k <;> rfl

theorem digitChar_toNat (k : Nat) (h : k < 10) : (digitChar k).toNat = 48 + k := by
  interval_cases k <;> rfl

theorem parseYear_pad4 (y : Nat) (hy : y ≤ 9999) (r : List Char) :
    parseYear (pad4chars y ++ r) = some (y, r) := by
  have h1 : y / 1000 < 10 := by omega
  have h2 : y / 100 % 10 < 10 := Nat.mod_lt _ (by norm_num)
  have h3 : y / 10 % 10 < 10 := Nat.mod_lt _ (by norm_num)
  have h4 : y % 10 < 10 := Nat.mod_lt _ (by norm_num)
  simp [pad4chars, parseYear, digitChar_isDigit _ h1, digitChar_isDigit _ h2,
    digitChar_isDigit _ h3, digitChar_isDigit _ h4, digitChar_toNat _ h1,
    digitChar_toNat _ h2, digitChar_toNat _ h3, digitChar_toNat _ h4]
  omega

theorem parseMonth_pad2 (m : Nat) (hm1 : 1 ≤ m) (hm2 : m ≤ 12) (r : List Char) :
    parseMonth (pad2chars m ++ r) = some (m, r) := by
  interval_cases m <;> rfl

theorem parseDay_pad2 (d : Nat) (hd1 : 1 ≤ d) (hd2 : d ≤ 31) (r : List Char) :
    parseDay (pad2chars d ++ r) = some (d, r) := by
  interval_cases d <;> rfl

theorem parseDay_pad2_nil (d : Nat) (hd1 : 1 ≤ d) (hd2 : d ≤ 31) :
    parseDay (pad2chars d) = some (d, []) := by
  simpa using parseDay_pad2 d hd1 hd2 []

theorem daysInMonth_le_31 (y m : Nat) : daysInMonth y m ≤ 31 := by
  unfold daysInMonth
  split_ifs <;> omega

theorem strptimeYMD_render (sep : Char) (y m d : Nat) (h : validDate y m d) :
    strptimeYMD sep (renderDate sep y m d) = some ⟨y, m, d⟩ := by
  obtain ⟨h1, h2, h3, h4, h5, h6⟩ := h
  have hd31 : d ≤ 31 := le_trans h6 (daysInMonth_le_31 y m)
  simp [strptimeYMD, renderDate, afterYear, afterMonth, finishDay,
    parseYear_pad4 y h2, parseMonth_pad2 m h3 h4, parseDay_pad2_nil d h5 hd31,
    validDate, h1, h2, h3, h4, h5, h6]

theorem strptimeYMD_render_ne (sep2 sep : Char) (y m d : Nat) (hy : y ≤ 9999)
    (hne : sep2 ≠ sep) :
    strptimeYMD sep2 (renderDate sep y m d) = none := by
  simp [strptimeYMD, renderDate, afterYear, parseYear_pad4 y hy, hne.symm]

/-- C6: any valid calendar date rendered in any of the four strict formats
parses back to exactly that date, whichever format and whatever the
fallback parser; when some strict format matches, the result is the first
strict match and is independent of the fallback; and when no strict format
matches, the result is exactly the fallback path. -/
theorem c6_strict_format_equivalence :
    (∀ (fb : String → Option PDate) (sep : Char) (y m d : Nat),
      sep ∈ strictSeps → validDate y m d →
        parse_date fb (renderDate sep y m d) = Except.ok ⟨y, m, d⟩) ∧
    (∀ (fb fb2 : String → Option PDate) (s : String) (dd : PDate),
      strictSeps.findSome? (fun sep => strptimeYMD sep s) = some dd →
        parse_date fb s = Except.ok dd ∧ parse_date fb s = parse_date fb2 s) ∧
    (∀ (fb : String → Option PDate) (s : String),
      strictSeps.findSome? (fun sep => strptimeYMD sep s) = none →
        parse_date fb s =
          (match fb s with
            | some dd => Except.ok dd
            | none => Except.error ("Invalid date format: " ++ s))) := by
  refine ⟨?_, ?_, ?_⟩
  · intro fb sep y m d hsep hv
    have hy : y ≤ 9999 := hv.2.1
    simp only [strictSeps, List.mem_cons, List.not_mem_nil, or_false] at hsep
    rcases hsep with rfl | rfl | rfl | rfl
    · simp [parse_date, strictSeps, List.findSome?_cons,
        strptimeYMD_render ':' y m d hv]
    · simp [parse_date, strictSeps, List.findSome?_cons,
        strptimeYMD_render_ne ':' '-' y m d hy (by decide),
        strptimeYMD_render '-' y m d hv]
    · simp [parse_date, strictSeps, List.findSome?_cons,
        strptimeYMD_render_ne ':' '/' y m d hy (by decide),
        strptimeYMD_render_ne '-' '/' y m d hy (by decide),
        strptimeYMD_render '/' y m d hv]
    · simp [parse_date, strictSeps, List.findSome?_cons,
        strptimeYMD_render_ne ':' '.' y m d hy (by decide),
        strptimeYMD_render_ne '-' '.' y m d hy (by decide),
        strptimeYMD_render_ne '/' '.' y m d hy (by decide),
        strptimeYMD_render '.' y m d hv]
  · intro fb fb2 s dd h
    unfold parse_date
    rw [h]
    exact ⟨rfl, rfl⟩
  · intro fb s h
    unfold parse_date
    rw [h]

/-- C6 witness: 2021-05-07 rendered with ':' and with '.' both parse back
to (2021, 5, 7) under an empty fallback. -/
theorem c6_strict_format_equivalence_check :
    parse_date (fun _ => none) (renderDate ':' 2021 5 7) = Except.ok ⟨2021, 5, 7⟩ ∧
    parse_date (fun _ => none) (renderDate '.' 2021 5 7) = Except.ok ⟨2021, 5, 7⟩ :=
  ⟨c6_strict_format_equivalence.1 (fun _ => none) ':' 2021 5 7 (by decide) (by decide),
    c6_strict_format_equivalence.1 (fun _ => none) '.' 2021 5 7 (by decide) (by decide)⟩

/-- C7: `parse_date` fails with the error message `"Invalid date format: "`
followed by the offending string exactly when every strict format and the
permissive fallback all fail, and every error it ever returns has exactly
that message. -/
theorem c7_invalid_date_error :
    ∀ (fb : String → Option PDate) (s : String),
      (parse_date fb s = Except.error ("Invalid date format: " ++ s) ↔
        ((∀ sep ∈ strictSeps, strptimeYMD sep s = none) ∧ fb s = none)) ∧
      (∀ e, parse_date fb s = Except.error e → e = "Invalid date format: " ++ s) := by
  intro fb s
  refine ⟨?_, fun e h => parse_date_error_msg fb s e h⟩
  unfold parse_date
  cases hfs : strictSeps.findSome? (fun sep => strptimeYMD sep s) with
  | some d =>
    constructor
    · intro h
      exact absurd h (by simp)
    · rintro ⟨hall, -⟩
      rw [List.findSome?_eq_none_iff.mpr hall] at hfs
      exact absurd hfs (by simp)
  | none =>
    cases hfb : fb s with
    | some d =>
      constructor
      · intro h
        exact absurd h (by simp)
      · rintro ⟨-, hnone⟩
        exact absurd hnone (by simp)
    | none =>
      constructor
      · intro _
        exact ⟨List.findSome?_eq_none_iff.mp hfs, rfl⟩
      · intro _
        rfl

/-- C7 witness: "hello" matches no strategy and produces exactly the
invalid-date error naming it. -/
theorem c7_invalid_date_error_check :
    parse_date (fun _ => none) "hello" = Except.error "Invalid date format: hello" :=
  ((c7_invalid_date_error (fun _ => none) "hello").1).mpr ⟨by decide, rfl⟩

/-- C9: the Normalizer yields exactly one record per input kline in the
same order (same length, `i`-th output from `i`-th input), each output
copies the 12 positional fields under their names, and for a kline with
open time 1609459200000 (2021-01-01T00:00:00Z) the derived fields are
day_of_month = 1, hour_of_day = 0, day_of_year = 1. -/
theorem c9_normalizer :
    (∀ ks : List Kline, (process_klines ks).length = ks.length) ∧
    (∀ (ks : List Kline) (i : Nat) (h1 : i < (process_klines ks).length)
        (h2 : i < ks.length),
      (process_klines ks).get ⟨i, h1⟩ = normalizeOne (ks.get ⟨i, h2⟩)) ∧
    (∀ k : Kline,
      (normalizeOne k).open_time = k.openTime ∧
      (normalizeOne k).open_ = k.openField ∧
      (normalizeOne k).high = k.highField ∧
      (normalizeOne k).low = k.lowField ∧
      (normalizeOne k).close = k.closeField ∧
      (normalizeOne k).volume = k.volumeField ∧
      (normalizeOne k).close_time = k.closeTimeField ∧
      (normalizeOne k).quote_asset_volume = k.quoteAssetVolume ∧
      (normalizeOne k).number_of_trades = k.numberOfTrades ∧
      (normalizeOne k).taker_buy_base_volume = k.takerBuyBase ∧
      (normalizeOne k).taker_buy_quote_volume = k.takerBuyQuote ∧
      (normalizeOne k).ignore = k.ignoreField) ∧
    (∀ k : Kline, k.openTime = 1609459200000 →
      (normalizeOne k).day_of_month = 1 ∧
      (normalizeOne k).hour_of_day = 0 ∧
      (normalizeOne k).day_of_year = 1) := by
  refine ⟨?_, ?_, ?_, ?_⟩
  · intro ks
    induction ks with
    | nil => rfl
    | cons k t ih => simp [process_klines, ih]
  · intro ks
    induction ks with
    | nil => intro i h1 h2; exact absurd h2 (by simp)
    | cons k t ih =>
      intro i h1 h2
      cases i with
      | zero => rfl
      | succ n =>
        simp only [process_klines, List.get_cons_succ]
        exact ih n _ _
  · intro k
    exact ⟨rfl, rfl, rfl, rfl, rfl, rfl, rfl, rfl, rfl, rfl, rfl, rfl⟩
  · intro k h
    refine ⟨?_, ?_, ?_⟩ <;> simp [normalizeOne, h] <;> decide

/-- C9 witness: a concrete kline with open time 1609459200000 gets derived
fields (1, 0, 1). -/
theorem c9_normalizer_check :
    (normalizeOne (testKline 1609459200000)).day_of_month = 1 ∧
    (normalizeOne (testKline 1609459200000)).hour_of_day = 0 ∧
    (normalizeOne (testKline 1609459200000)).day_of_year = 1 :=
  c9_normalizer.2.2.2 (testKline 1609459200000) rfl
